import Mathlib

/-!
Shallow embedding of the NWQEC transpiler driver and pass infrastructure
(files src/include/nwqec/core/transpiler.hpp,
src/include/nwqec/core/transpiler_passes.hpp and the variant header
src/unnamed/part_000), together with the parts of the IR and the T-fuse
pass that the properties below need.  Machine behaviour that lives in
headers not shipped with the core (circuit.hpp, tfuse_pass.hpp) is
modelled from the specification and marked as such in doc comments.
-/

set_option maxRecDepth 4096

namespace NWQEC

/-- Single-qubit Pauli letter, spec section 3: each P_i ranges over I, X, Y, Z. -/
inductive P4 where
  | I | X | Y | Z
deriving DecidableEq, Repr

/-- Modelled from the spec: a signed multi-qubit Pauli string
P = s * P0 ⊗ ... ⊗ P_{n-1} with s in \x7b+1, -1\x7d (spec section 3,
PauliOp; the C++ pauli_op header is not under src/).
neg = true encodes the sign -1. -/
structure PauliOp where
  neg : Bool
  paulis : List P4
deriving DecidableEq, Repr

/-- Whether two Pauli letters anticommute: both non-identity and distinct. -/
def P4.anticommutesWith (a b : P4) : Bool :=
  a != P4.I && b != P4.I && a != b

/-- Modelled from the spec: P and Q commute iff the number of positions
where the letters anticommute is even (spec section 3). -/
def PauliOp.commutes_with (P Q : PauliOp) : Bool :=
  ((P.paulis.zip Q.paulis).countP fun ab => P4.anticommutesWith ab.1 ab.2) % 2 == 0

/-- Negation of a signed Pauli: flips the sign, keeps the string. -/
def PauliOp.negate (P : PauliOp) : PauliOp :=
  { P with neg := !P.neg }

/-- Operation kinds of the IR, following the table of spec section 3.
Angles are modelled as rationals (the code stores doubles; no claim below
depends on rounding). -/
inductive Op where
  | h (q : Nat) | x (q : Nat) | y (q : Nat) | z (q : Nat)
  | s (q : Nat) | sdg (q : Nat) | t (q : Nat) | tdg (q : Nat)
  | sx (q : Nat) | sxdg (q : Nat)
  | rx (theta : Rat) (q : Nat) | ry (theta : Rat) (q : Nat) | rz (theta : Rat) (q : Nat)
  | cx (a b : Nat) | cz (a b : Nat) | swap (a b : Nat)
  | ccx (a b c : Nat)
  | measure (q : Nat) (cbit : Nat)
  | reset (q : Nat)
  | barrier (qs : List Nat)
  | tPauli (p : PauliOp) | sPauli (p : PauliOp) | zPauli (p : PauliOp)
  | mPauli (p : PauliOp) (cbit : Nat)
deriving DecidableEq, Repr

/-- The circuit IR: an ordered operation sequence over a fixed qubit and
classical-bit register (spec section 3). -/
structure Circuit where
  num_qubits : Nat
  num_cbits : Nat
  ops : List Op
deriving DecidableEq, Repr

/-- Qubits an operation touches (for a Pauli-based operation: the
non-identity positions of its string). -/
def Op.qubits : Op → List Nat
  | .h q | .x q | .y q | .z q | .s q | .sdg q | .t q | .tdg q
  | .sx q | .sxdg q | .rx _ q | .ry _ q | .rz _ q
  | .measure q _ | .reset q => [q]
  | .cx a b | .cz a b | .swap a b => [a, b]
  | .ccx a b c => [a, b, c]
  | .barrier qs => qs
  | .tPauli p | .sPauli p | .zPauli p | .mPauli p _ =>
      (List.range p.paulis.length).filter fun i => p.paulis.getD i P4.I != P4.I

/-- Modelled from the spec: total gate count of the cached statistics view
(spec section 3; circuit.hpp with count_ops is not under src/).  The
driver only ever uses the sum over all per-gate counts, which is the
length of the operation sequence. -/
def Circuit.gateTotal (c : Circuit) : Nat :=
  c.ops.length

/-- Modelled from the spec: circuit depth of the statistics view, computed
by greedy layering over shared qubits (circuit.hpp is not under src/). -/
def Circuit.depth (c : Circuit) : Nat :=
  let levels := c.ops.foldl
    (fun ls op =>
      let qs := op.qubits
      let l := (qs.map fun q => ls.getD q 0).foldl max 0 + 1
      qs.foldl (fun ls q => ls.set q l) ls)
    (List.replicate c.num_qubits 0)
  levels.foldl max 0

/-- Number of T_PAULI operations in an operation list. -/
def tPauliCount (l : List Op) : Nat :=
  l.countP fun op => match op with | .tPauli _ => true | _ => false

/-- Modelled from the spec: T-count entry of the statistics view: number
of T, T-dagger and T_PAULI operations. -/
def statsTCount (l : List Op) : Nat :=
  l.countP fun op => match op with
    | .t _ | .tdg _ | .tPauli _ => true
    | _ => false

/-- Whether an operation is Pauli-based or a barrier; a PBC circuit
contains only such operations (spec section 3, PBC exclusivity). -/
def Op.isPbcOp : Op → Bool
  | .tPauli _ | .sPauli _ | .zPauli _ | .mPauli _ _ | .barrier _ => true
  | _ => false

/-- A circuit is in PBC form when every operation is Pauli-based or a
barrier. -/
def Circuit.isPbc (c : Circuit) : Bool :=
  c.ops.all Op.isPbcOp

/-- Raw pass-kind value.  The C++ PassType is an enum class over int, so a
variable of the type can hold any integral value, not only the eight
declared enumerators; those have the underlying values 0..7 in declaration
order (transpiler_passes.hpp lines 11-27). -/
abbrev PassType := Nat

/-- Enumerator DECOMPOSE of PassType. -/
def PassType.DECOMPOSE : PassType := 0

/-- Enumerator REMOVE_TRIVIAL_RZ of PassType. -/
def PassType.REMOVE_TRIVIAL_RZ : PassType := 1

/-- Enumerator GATE_FUSION of PassType. -/
def PassType.GATE_FUSION : PassType := 2

/-- Enumerator REMOVE_PAULI of PassType. -/
def PassType.REMOVE_PAULI : PassType := 3

/-- Enumerator TO_PBC of PassType. -/
def PassType.TO_PBC : PassType := 4

/-- Enumerator CLIFFORD_REDUCTION of PassType. -/
def PassType.CLIFFORD_REDUCTION : PassType := 5

/-- Enumerator SYNTHESIZE_RZ of PassType. -/
def PassType.SYNTHESIZE_RZ : PassType := 6

/-- Enumerator TFUSE of PassType. -/
def PassType.TFUSE : PassType := 7

/-- The eight declared enumerators of PassType, in declaration order. -/
def PassType.allKinds : List PassType :=
  [PassType.DECOMPOSE, PassType.REMOVE_TRIVIAL_RZ, PassType.GATE_FUSION,
   PassType.REMOVE_PAULI, PassType.TO_PBC, PassType.CLIFFORD_REDUCTION,
   PassType.SYNTHESIZE_RZ, PassType.TFUSE]

/-- Embedding of pass_type_to_string (transpiler_passes.hpp lines 32-44):
a switch over the eight enumerators with default "UNKNOWN". -/
def pass_type_to_string (type : PassType) : String :=
  if type = PassType.DECOMPOSE then "DECOMPOSE"
  else if type = PassType.REMOVE_TRIVIAL_RZ then "REMOVE_TRIVIAL_RZ"
  else if type = PassType.GATE_FUSION then "GATE_FUSION"
  else if type = PassType.REMOVE_PAULI then "REMOVE_PAULI"
  else if type = PassType.TO_PBC then "TO_PBC"
  else if type = PassType.CLIFFORD_REDUCTION then "CLIFFORD_REDUCTION"
  else if type = PassType.SYNTHESIZE_RZ then "SYNTHESIZE_RZ"
  else if type = PassType.TFUSE then "TFUSE"
  else "UNKNOWN"

/-- Embedding of struct PassConfig (transpiler.hpp lines 29-34).  The
double field epsilon_override is modelled as a rational; the only
operations the driver performs on it are the default -1 and the
comparison with 0, both exact. -/
structure PassConfig where
  keep_ccx : Bool
  keep_cx : Bool
  epsilon_override : Rat
  silent : Bool
deriving DecidableEq, Repr

/-- The default PassConfig, from the member initialisers of the C++
struct: keep_ccx = false, keep_cx = false, epsilon_override = -1.0,
silent = false. -/
def PassConfig.default : PassConfig :=
  { keep_ccx := false, keep_cx := false, epsilon_override := -1, silent := false }

/-- The pass object create_pass returns, recorded together with the
constructor arguments the driver supplies (transpiler.hpp lines 124-163):
DecomposePass(keep_ccx), RemoveTrivialRzPass(), GateFusionPass(),
RemovePauliPass(), PbcPass(keep_cx), CRPass(), SynthesizeRzPass(eps) or
SynthesizeRzPass() (per-angle default, encoded as none), TfusePass(). -/
inductive PassInstance where
  | decompose (keep_ccx : Bool)
  | removeTrivialRz
  | gateFusion
  | removePauli
  | pbc (keep_cx : Bool)
  | cliffordReduction
  | synthesizeRz (epsOverride : Option Rat)
  | tfuse
deriving DecidableEq, Repr

/-- Embedding of Transpiler::create_pass (transpiler.hpp lines 124-163).
The compile-time flag NWQEC_WITH_GRIDSYNTH_CPP is the parameter
gridsynth: when it is false the SYNTHESIZE_RZ case returns nullptr
(none), as does the default case for a value outside the eight
enumerators. -/
def create_pass (gridsynth : Bool) (type : PassType) (config : PassConfig) :
    Option PassInstance :=
  if type = PassType.DECOMPOSE then some (.decompose config.keep_ccx)
  else if type = PassType.REMOVE_TRIVIAL_RZ then some .removeTrivialRz
  else if type = PassType.GATE_FUSION then some .gateFusion
  else if type = PassType.REMOVE_PAULI then some .removePauli
  else if type = PassType.TO_PBC then some (.pbc config.keep_cx)
  else if type = PassType.CLIFFORD_REDUCTION then some .cliffordReduction
  else if type = PassType.SYNTHESIZE_RZ then
    if gridsynth then
      if config.epsilon_override ≥ 0 then
        some (.synthesizeRz (some config.epsilon_override))
      else
        some (.synthesizeRz none)
    else none
  else if type = PassType.TFUSE then some .tfuse
  else none

/-- Error type of a pass that signals hard failure from run.  C++ run
returns a bool, so a hard failure can only be a thrown exception; the
payload is irrelevant to the driver, which never inspects it. -/
abbrev PassError := String

/-- Console events of the driver: the banner plus table header printed
before the loop, the warning for a pass that could not be materialised,
one statistics row per executed pass (print_pass_stats, transpiler.hpp
lines 176-191: name, modified flag, total gates before, total gates
after, depth after), and the final aggregate statistics. -/
inductive OutEvent where
  | header
  | warning (passName : String)
  | row (passName : String) (modified : Bool) (gatesBefore gatesAfter depthAfter : Nat)
  | finalStats (gates depth tcount : Nat)
deriving DecidableEq, Repr

/-- Whether an event is a per-pass statistics row. -/
def OutEvent.isRow : OutEvent → Bool
  | .row _ _ _ _ _ => true
  | _ => false

/-- A run semantics for pass objects: what the missing pass
implementations do when run on a circuit.  run returns the modified flag
and mutates the circuit in place; a thrown exception is Except.error.
The driver below is verified for every such semantics. -/
abbrev RunSem := PassInstance → Circuit → Except PassError (Bool × Circuit)

/-- The loop body of Transpiler::execute_passes (transpiler.hpp lines
99-114): for each pass kind, materialise the pass; on failure warn
(unless silent) and continue; otherwise snapshot the circuit, run the
pass, and (unless silent) print one statistics row.  An exception from
run propagates: no handler exists in the C++ code, so the iteration stops
and no circuit is returned, while output already printed remains. -/
def execLoop (gridsynth : Bool) (runSem : RunSem) (config : PassConfig) :
    List PassType → Circuit → Except PassError Circuit × List OutEvent
  | [], c => (.ok c, [])
  | type :: rest, c =>
    match create_pass gridsynth type config with
    | none =>
      let r := execLoop gridsynth runSem config rest c
      (r.1, (if config.silent then [] else [.warning (pass_type_to_string type)]) ++ r.2)
    | some p =>
      match runSem p c with
      | .error e => (.error e, [])
      | .ok (modified, c') =>
        let r := execLoop gridsynth runSem config rest c'
        (r.1,
         (if config.silent then []
          else [.row (pass_type_to_string type) modified c.gateTotal c'.gateTotal c'.depth])
           ++ r.2)

/-- Embedding of Transpiler::execute_passes (transpiler.hpp lines
89-122): header (unless silent), the pass loop, final statistics (unless
silent), and the transformed circuit.  The result pairs the returned
value - or the propagated error - with the console output. -/
def execute_passes (gridsynth : Bool) (runSem : RunSem) (circuit : Circuit)
    (passes : List PassType) (config : PassConfig) :
    Except PassError Circuit × List OutEvent :=
  let hdr : List OutEvent := if config.silent then [] else [.header]
  match execLoop gridsynth runSem config passes circuit with
  | (.error e, out) => (.error e, hdr ++ out)
  | (.ok c, out) =>
    (.ok c,
     hdr ++ out ++
       (if config.silent then []
        else [.finalStats c.gateTotal c.depth (statsTCount c.ops)]))

/-- Embedding of Transpiler::execute_sequence (transpiler.hpp lines
63-69): a direct delegation to execute_passes. -/
def execute_sequence (gridsynth : Bool) (runSem : RunSem) (circuit : Circuit)
    (sequenceArg : List PassType) (config : PassConfig) :
    Except PassError Circuit × List OutEvent :=
  execute_passes gridsynth runSem circuit sequenceArg config

namespace PassSequences

/-- BASIC_PREPROCESSING (src/unnamed/part_000 lines 58-61). -/
def BASIC_PREPROCESSING : List PassType :=
  [PassType.DECOMPOSE, PassType.REMOVE_TRIVIAL_RZ]

/-- FULL_PREPROCESSING (src/unnamed/part_000 lines 64-68). -/
def FULL_PREPROCESSING : List PassType :=
  [PassType.DECOMPOSE, PassType.REMOVE_TRIVIAL_RZ, PassType.SYNTHESIZE_RZ]

/-- TO_CLIFFORD_T (src/unnamed/part_000 lines 73-78). -/
def TO_CLIFFORD_T : List PassType :=
  [PassType.DECOMPOSE, PassType.REMOVE_TRIVIAL_RZ, PassType.SYNTHESIZE_RZ,
   PassType.GATE_FUSION]

/-- TO_PBC (src/unnamed/part_000 lines 81-86). -/
def TO_PBC : List PassType :=
  [PassType.DECOMPOSE, PassType.REMOVE_TRIVIAL_RZ, PassType.SYNTHESIZE_RZ,
   PassType.TO_PBC]

/-- TO_PBC_OPTIMIZED (src/unnamed/part_000 lines 89-95). -/
def TO_PBC_OPTIMIZED : List PassType :=
  [PassType.DECOMPOSE, PassType.REMOVE_TRIVIAL_RZ, PassType.SYNTHESIZE_RZ,
   PassType.TO_PBC, PassType.TFUSE]

/-- TO_CLIFFORD_REDUCTION (src/unnamed/part_000 lines 98-103). -/
def TO_CLIFFORD_REDUCTION : List PassType :=
  [PassType.DECOMPOSE, PassType.REMOVE_TRIVIAL_RZ, PassType.SYNTHESIZE_RZ,
   PassType.CLIFFORD_REDUCTION]

/-- T_OPTIMIZATION_ONLY (src/unnamed/part_000 lines 108-110). -/
def T_OPTIMIZATION_ONLY : List PassType :=
  [PassType.TFUSE]

/-- CLEANUP (src/unnamed/part_000 lines 113-116). -/
def CLEANUP : List PassType :=
  [PassType.GATE_FUSION, PassType.REMOVE_TRIVIAL_RZ]

end PassSequences

/- The PassSequences namespace of the variant header
src/include/nwqec/core/transpiler_passes.hpp (lines 49-94), which uses a
different naming scheme for the same workflows. -/
namespace CoreHeaderPassSequences

/-- TO_CLIFFORD_T (transpiler_passes.hpp lines 51-56). -/
def TO_CLIFFORD_T : List PassType :=
  [PassType.DECOMPOSE, PassType.REMOVE_TRIVIAL_RZ, PassType.SYNTHESIZE_RZ,
   PassType.GATE_FUSION]

/-- TO_CLIFFORD_T_RZ (transpiler_passes.hpp lines 59-62). -/
def TO_CLIFFORD_T_RZ : List PassType :=
  [PassType.DECOMPOSE, PassType.REMOVE_TRIVIAL_RZ]

/-- TO_PBC_BASIC (transpiler_passes.hpp lines 65-70). -/
def TO_PBC_BASIC : List PassType :=
  [PassType.DECOMPOSE, PassType.REMOVE_TRIVIAL_RZ, PassType.SYNTHESIZE_RZ,
   PassType.TO_PBC]

/-- TO_PBC_OPTIMIZED (transpiler_passes.hpp lines 73-79). -/
def TO_PBC_OPTIMIZED : List PassType :=
  [PassType.DECOMPOSE, PassType.REMOVE_TRIVIAL_RZ, PassType.SYNTHESIZE_RZ,
   PassType.TO_PBC, PassType.TFUSE]

/-- CLIFFORD_REDUCTION (transpiler_passes.hpp lines 82-87). -/
def CLIFFORD_REDUCTION : List PassType :=
  [PassType.DECOMPOSE, PassType.REMOVE_TRIVIAL_RZ, PassType.SYNTHESIZE_RZ,
   PassType.CLIFFORD_REDUCTION]

/-- POST_SYNTHESIS_CLEANUP (transpiler_passes.hpp lines 90-93). -/
def POST_SYNTHESIS_CLEANUP : List PassType :=
  [PassType.GATE_FUSION, PassType.REMOVE_TRIVIAL_RZ]

end CoreHeaderPassSequences

/-- Kind of a Pauli-based rotation: pi/4 (T_PAULI), pi/2 (S_PAULI) or pi
(Z_PAULI). -/
inductive PKind where
  | tK | sK | zK
deriving DecidableEq, Repr

/-- The rotation kind and Pauli string of a Pauli-based rotation
operation; none for every other operation (measurements and barriers do
not fuse). -/
def Op.pbcRotation : Op → Option (PKind × PauliOp)
  | .tPauli p => some (.tK, p)
  | .sPauli p => some (.sK, p)
  | .zPauli p => some (.zK, p)
  | _ => none

/-- Outcome of searching a fusion partner: an equal Pauli (combine into
the next-higher rotation) or a negated Pauli (the pair cancels). -/
inductive SeekHit where
  | equal | negated
deriving DecidableEq, Repr

/-- Modelled from the spec: scan forward through the following rotations
of the same kind whose Pauli strings commute with P - these may be
reordered freely (spec section 4.8, rule 3) - looking for one equal to P
or to -P.  Returns the hit together with the remaining operations with
the partner removed; none when an anticommuting or foreign operation is
reached first. -/
def seekMatch (k : PKind) (P : PauliOp) : List Op → Option (SeekHit × List Op)
  | [] => none
  | op :: rest =>
    match op.pbcRotation with
    | some (k2, Q) =>
      if k2 = k ∧ P.commutes_with Q then
        if Q = P then some (.equal, rest)
        else if Q = P.negate then some (.negated, rest)
        else
          match seekMatch k P rest with
          | some (hit, rest2) => some (hit, op :: rest2)
          | none => none
      else none
    | none => none

/-- Combining two equal rotations of a kind gives the next rotation:
T_PAULI pairs give S_PAULI, S_PAULI pairs give Z_PAULI, Z_PAULI pairs
give the identity (spec section 4.8). -/
def PKind.promote (k : PKind) (P : PauliOp) : Option Op :=
  match k with
  | .tK => some (.sPauli P)
  | .sK => some (.zPauli P)
  | .zK => none

/-- Modelled from the spec: one left-to-right sweep of the T-fuse
rewriting (spec section 4.8; tfuse_pass.hpp is not under src/).  For each
Pauli rotation, a commuting partner with an equal Pauli string combines
into the promoted rotation and a negated one cancels the pair; all other
operations pass through.  The fuel argument bounds the recursion by the
list length. -/
def tfuseOnceF : Nat → List Op → List Op
  | 0, l => l
  | _ + 1, [] => []
  | fuel + 1, op :: rest =>
    match op.pbcRotation with
    | some (k, P) =>
      match seekMatch k P rest with
      | some (.equal, rest2) =>
        match k.promote P with
        | some op2 => op2 :: tfuseOnceF fuel rest2
        | none => tfuseOnceF fuel rest2
      | some (.negated, rest2) => tfuseOnceF fuel rest2
      | none => op :: tfuseOnceF fuel rest
    | none => op :: tfuseOnceF fuel rest

/-- One sweep of the T-fuse rewriting over a whole operation list. -/
def tfuseOnce (l : List Op) : List Op :=
  tfuseOnceF l.length l

/-- Modelled from the spec: iterate the sweep to a fixed point under an
iteration cap proportional to the number of T rotations (spec section
4.8). -/
def tfuseIter : Nat → List Op → List Op
  | 0, l => l
  | n + 1, l =>
    let l2 := tfuseOnce l
    if l2 = l then l else tfuseIter n l2

/-- Modelled from the spec: run of the TfusePass on a circuit: rewrite
the operation list to the capped fixed point and report whether anything
changed (pass contract, spec section 4.1). -/
def tfuseRun (c : Circuit) : Bool × Circuit :=
  let ops2 := tfuseIter (tPauliCount c.ops + 1) c.ops
  (decide (ops2 ≠ c.ops), { c with ops := ops2 })

/-- Helper: prepending an operation never lowers the T_PAULI count. -/
lemma tPauliCount_cons_le (op : Op) (l : List Op) :
    tPauliCount l ≤ tPauliCount (op :: l) := by
  simp only [tPauliCount, List.countP_cons]
  exact Nat.le_add_right _ _

/-- Helper: an S_PAULI rotation does not contribute to the T_PAULI
count. -/
lemma tPauliCount_cons_sPauli (P : PauliOp) (l : List Op) :
    tPauliCount (Op.sPauli P :: l) = tPauliCount l := by
  simp [tPauliCount, List.countP_cons]

/-- Helper: a Z_PAULI rotation does not contribute to the T_PAULI
count. -/
lemma tPauliCount_cons_zPauli (P : PauliOp) (l : List Op) :
    tPauliCount (Op.zPauli P :: l) = tPauliCount l := by
  simp [tPauliCount, List.countP_cons]

/-- Helper: removing the fusion partner found by seekMatch never raises
the T_PAULI count of the remaining operations. -/
lemma seekMatch_count (k : PKind) (P : PauliOp) :
    ∀ (l l2 : List Op) (hit : SeekHit),
      seekMatch k P l = some (hit, l2) → tPauliCount l2 ≤ tPauliCount l := by
  intro l
  induction l with
  | nil => intro l2 hit h; simp [seekMatch] at h
  | cons op rest ih =>
    intro l2 hit h
    rw [seekMatch] at h
    cases hrot : op.pbcRotation with
    | none =>
      rw [hrot] at h
      exact absurd h (by simp)
    | some kq =>
      obtain ⟨k2, Q⟩ := kq
      rw [hrot] at h
      dsimp only at h
      by_cases hcond : k2 = k ∧ P.commutes_with Q
      · rw [if_pos hcond] at h
        by_cases heq : Q = P
        · rw [if_pos heq] at h
          simp only [Option.some.injEq, Prod.mk.injEq] at h
          rw [← h.2]
          exact tPauliCount_cons_le op rest
        · rw [if_neg heq] at h
          by_cases hneg : Q = P.negate
          · rw [if_pos hneg] at h
            simp only [Option.some.injEq, Prod.mk.injEq] at h
            rw [← h.2]
            exact tPauliCount_cons_le op rest
          · rw [if_neg hneg] at h
            cases hrec : seekMatch k P rest with
            | none =>
              rw [hrec] at h
              exact absurd h (by simp)
            | some pr =>
              obtain ⟨hit2, rest2⟩ := pr
              rw [hrec] at h
              simp only [Option.some.injEq, Prod.mk.injEq] at h
              rw [← h.2]
              simp only [tPauliCount, List.countP_cons]
              exact Nat.add_le_add_right (ih rest2 hit2 hrec) _
      · rw [if_neg hcond] at h
        exact absurd h (by simp)

/-- Helper: one sweep of the T-fuse rewriting never raises the T_PAULI
count, for any fuel. -/
lemma tfuseOnceF_count : ∀ (fuel : Nat) (l : List Op),
    tPauliCount (tfuseOnceF fuel l) ≤ tPauliCount l := by
  intro fuel
  induction fuel with
  | zero => intro l; simp [tfuseOnceF]
  | succ n ih =>
    intro l
    cases l with
    | nil => simp [tfuseOnceF]
    | cons op rest =>
      simp only [tfuseOnceF]
      cases hrot : op.pbcRotation with
      | none =>
        try rw [hrot]
        try dsimp only
        simp only [tPauliCount, List.countP_cons]
        exact Nat.add_le_add_right (ih rest) _
      | some kq =>
        obtain ⟨k2, P⟩ := kq
        try rw [hrot]
        try dsimp only
        cases hseek : seekMatch k2 P rest with
        | none =>
          try rw [hseek]
          try dsimp only
          simp only [tPauliCount, List.countP_cons]
          exact Nat.add_le_add_right (ih rest) _
        | some pr =>
          obtain ⟨hit, rest2⟩ := pr
          try rw [hseek]
          try dsimp only
          have hs := seekMatch_count k2 P rest rest2 hit hseek
          have hc : tPauliCount rest ≤ tPauliCount (op :: rest) :=
            tPauliCount_cons_le op rest
          cases hit with
          | equal =>
            cases k2 with
            | tK =>
              dsimp only [PKind.promote]
              rw [tPauliCount_cons_sPauli]
              exact le_trans (le_trans (ih rest2) hs) hc
            | sK =>
              dsimp only [PKind.promote]
              rw [tPauliCount_cons_zPauli]
              exact le_trans (le_trans (ih rest2) hs) hc
            | zK =>
              dsimp only [PKind.promote]
              exact le_trans (le_trans (ih rest2) hs) hc
          | negated =>
            exact le_trans (le_trans (ih rest2) hs) hc

/-- Helper: the capped iteration of the sweep never raises the T_PAULI
count. -/
lemma tfuseIter_count : ∀ (n : Nat) (l : List Op),
    tPauliCount (tfuseIter n l) ≤ tPauliCount l := by
  intro n
  induction n with
  | zero => intro l; simp [tfuseIter]
  | succ m ih =>
    intro l
    rw [tfuseIter]
    split_ifs with h
    · exact le_rfl
    · exact le_trans (ih (tfuseOnce l)) (tfuseOnceF_count l.length l)

/-- A concrete two-qubit PBC circuit with two equal T_PAULI rotations
(spec section 8, scenario 6). -/
def pbcExample : Circuit :=
  { num_qubits := 2, num_cbits := 0,
    ops := [Op.tPauli { neg := false, paulis := [P4.X, P4.I] },
            Op.tPauli { neg := false, paulis := [P4.X, P4.I] }] }

/-- Sanity check of the T-fuse model against spec scenario 6: two equal
T_PAULI("+XI") rotations combine into a single S_PAULI("+XI"). -/
lemma tfuse_combines_equal_pair :
    (tfuseRun pbcExample).2.ops =
      [Op.sPauli { neg := false, paulis := [P4.X, P4.I] }] := by
  decide

/-- C8: running the T-fuse pass never increases the number of T_PAULI
operations: for every PBC input circuit the T_PAULI count of the output
is at most the T_PAULI count of the input. -/
theorem tfuse_t_count_monotone :
    ∀ c : Circuit, c.isPbc = true →
      tPauliCount ((tfuseRun c).2.ops) ≤ tPauliCount c.ops := by
  intro c _
  simp only [tfuseRun]
  exact tfuseIter_count _ _

/-- Witness for C8 at the concrete PBC circuit with two fusable T_PAULI
rotations. -/
theorem tfuse_t_count_monotone_witness :
    pbcExample.isPbc = true ∧
    tPauliCount ((tfuseRun pbcExample).2.ops) ≤ tPauliCount pbcExample.ops :=
  ⟨by decide, tfuse_t_count_monotone pbcExample (by decide)⟩

/-- C3: the predefined sequences of the PassSequences namespace
(src/unnamed/part_000) have exactly the contents the spec lists:
BASIC_PREPROCESSING is DECOMPOSE then REMOVE_TRIVIAL_RZ,
FULL_PREPROCESSING extends it with SYNTHESIZE_RZ, TO_CLIFFORD_T extends
FULL with GATE_FUSION, TO_PBC extends FULL with TO_PBC, TO_PBC_OPTIMIZED
extends TO_PBC with TFUSE, and TO_CLIFFORD_REDUCTION extends FULL with
CLIFFORD_REDUCTION. -/
theorem pass_sequences_definitions :
    PassSequences.BASIC_PREPROCESSING =
      [PassType.DECOMPOSE, PassType.REMOVE_TRIVIAL_RZ] ∧
    PassSequences.FULL_PREPROCESSING =
      PassSequences.BASIC_PREPROCESSING ++ [PassType.SYNTHESIZE_RZ] ∧
    PassSequences.TO_CLIFFORD_T =
      PassSequences.FULL_PREPROCESSING ++ [PassType.GATE_FUSION] ∧
    PassSequences.TO_PBC =
      PassSequences.FULL_PREPROCESSING ++ [PassType.TO_PBC] ∧
    PassSequences.TO_PBC_OPTIMIZED =
      PassSequences.TO_PBC ++ [PassType.TFUSE] ∧
    PassSequences.TO_CLIFFORD_REDUCTION =
      PassSequences.FULL_PREPROCESSING ++ [PassType.CLIFFORD_REDUCTION] :=
  ⟨rfl, rfl, rfl, rfl, rfl, rfl⟩

/-- C6: the pass-kind enumeration has exactly the eight declared kinds,
pairwise distinct, pass_type_to_string maps each to its own name, and
every value outside the eight enumerators maps to "UNKNOWN". -/
theorem pass_type_enumeration :
    PassType.allKinds.Nodup ∧
    PassType.allKinds.length = 8 ∧
    PassType.allKinds.map pass_type_to_string =
      ["DECOMPOSE", "REMOVE_TRIVIAL_RZ", "GATE_FUSION", "REMOVE_PAULI",
       "TO_PBC", "CLIFFORD_REDUCTION", "SYNTHESIZE_RZ", "TFUSE"] ∧
    ∀ t : PassType, t ∉ PassType.allKinds → pass_type_to_string t = "UNKNOWN" := by
  refine ⟨by decide, by decide, by decide, ?_⟩
  intro t ht
  simp only [PassType.allKinds, List.mem_cons, List.not_mem_nil, or_false, not_or] at ht
  obtain ⟨h1, h2, h3, h4, h5, h6, h7, h8⟩ := ht
  simp [pass_type_to_string, h1, h2, h3, h4, h5, h6, h7, h8]

/-- Witness for C6 at the concrete out-of-range value 8. -/
theorem pass_type_enumeration_witness :
    (8 : PassType) ∉ PassType.allKinds ∧ pass_type_to_string 8 = "UNKNOWN" :=
  ⟨by decide, pass_type_enumeration.2.2.2 8 (by decide)⟩

/-- C4: PassConfig has exactly the four fields keep_ccx, keep_cx,
epsilon_override, silent with defaults false, false, -1, false; and
create_pass builds the RZ-synthesis pass with the uniform override
epsilon exactly when epsilon_override is nonnegative, selecting the
per-angle default constructor for every negative override. -/
theorem pass_config_fields_and_epsilon :
    (PassConfig.default.keep_ccx = false ∧ PassConfig.default.keep_cx = false ∧
     PassConfig.default.epsilon_override = -1 ∧ PassConfig.default.silent = false) ∧
    (∀ a b : PassConfig, a.keep_ccx = b.keep_ccx → a.keep_cx = b.keep_cx →
      a.epsilon_override = b.epsilon_override → a.silent = b.silent → a = b) ∧
    (∀ config : PassConfig, config.epsilon_override ≥ 0 →
      create_pass true PassType.SYNTHESIZE_RZ config =
        some (.synthesizeRz (some config.epsilon_override))) ∧
    (∀ config : PassConfig, config.epsilon_override < 0 →
      create_pass true PassType.SYNTHESIZE_RZ config =
        some (.synthesizeRz none)) := by
  refine ⟨⟨rfl, rfl, rfl, rfl⟩, ?_, ?_, ?_⟩
  · intro a b h1 h2 h3 h4
    cases a; cases b; simp_all
  · intro config h
    simp [create_pass, PassType.SYNTHESIZE_RZ, PassType.DECOMPOSE,
      PassType.REMOVE_TRIVIAL_RZ, PassType.GATE_FUSION, PassType.REMOVE_PAULI,
      PassType.TO_PBC, PassType.CLIFFORD_REDUCTION, h]
  · intro config h
    simp [create_pass, PassType.SYNTHESIZE_RZ, PassType.DECOMPOSE,
      PassType.REMOVE_TRIVIAL_RZ, PassType.GATE_FUSION, PassType.REMOVE_PAULI,
      PassType.TO_PBC, PassType.CLIFFORD_REDUCTION, not_le.mpr h]

/-- Witness for C4 at the concrete overrides 1 (uniform) and the default
-1 (per-angle). -/
theorem pass_config_fields_and_epsilon_witness :
    create_pass true PassType.SYNTHESIZE_RZ
        { keep_ccx := false, keep_cx := false, epsilon_override := 1, silent := false } =
      some (.synthesizeRz (some 1)) ∧
    create_pass true PassType.SYNTHESIZE_RZ PassConfig.default =
      some (.synthesizeRz none) ∧
    ({ keep_ccx := false, keep_cx := false, epsilon_override := -1, silent := false } :
        PassConfig) = PassConfig.default :=
  ⟨pass_config_fields_and_epsilon.2.2.1 _ (by norm_num),
   pass_config_fields_and_epsilon.2.2.2 _ (by norm_num [PassConfig.default]),
   pass_config_fields_and_epsilon.2.1 _ _ rfl rfl rfl rfl⟩

/-- C5: create_pass routes keep_ccx to the Decompose pass it constructs
and keep_cx to the PBC-conversion pass; every other pass kind is
constructed independently of both flags (configs agreeing on
epsilon_override yield the same pass object). -/
theorem create_pass_flag_routing :
    (∀ (gs : Bool) (config : PassConfig),
      create_pass gs PassType.DECOMPOSE config =
        some (.decompose config.keep_ccx)) ∧
    (∀ (gs : Bool) (config : PassConfig),
      create_pass gs PassType.TO_PBC config = some (.pbc config.keep_cx)) ∧
    (∀ (gs : Bool) (type : PassType) (a b : PassConfig),
      type ≠ PassType.DECOMPOSE → type ≠ PassType.TO_PBC →
      a.epsilon_override = b.epsilon_override →
      create_pass gs type a = create_pass gs type b) := by
  refine ⟨?_, ?_, ?_⟩
  · intro gs config
    simp [create_pass]
  · intro gs config
    simp [create_pass, PassType.TO_PBC, PassType.DECOMPOSE,
      PassType.REMOVE_TRIVIAL_RZ, PassType.GATE_FUSION, PassType.REMOVE_PAULI]
  · intro gs type a b h1 h2 he
    simp only [create_pass, he]
    split_ifs <;> simp_all

/-- Witness for C5: the flags reach Decompose and PBC, and gate fusion is
constructed identically under opposite flag settings. -/
theorem create_pass_flag_routing_witness :
    create_pass true PassType.DECOMPOSE
        { keep_ccx := true, keep_cx := false, epsilon_override := -1, silent := false } =
      some (.decompose true) ∧
    create_pass true PassType.TO_PBC
        { keep_ccx := false, keep_cx := true, epsilon_override := -1, silent := false } =
      some (.pbc true) ∧
    create_pass true PassType.GATE_FUSION
        { keep_ccx := true, keep_cx := true, epsilon_override := -1, silent := true } =
      create_pass true PassType.GATE_FUSION PassConfig.default :=
  ⟨create_pass_flag_routing.1 true _,
   create_pass_flag_routing.2.1 true _,
   create_pass_flag_routing.2.2 true PassType.GATE_FUSION _ _
     (by decide) (by decide) rfl⟩

/-- Helper: create_pass reads only keep_ccx, keep_cx and epsilon_override
from the configuration; two configurations agreeing on those three fields
produce the same pass object for every kind. -/
lemma create_pass_fields_congr (gs : Bool) (type : PassType) (a b : PassConfig)
    (h1 : a.keep_ccx = b.keep_ccx) (h2 : a.keep_cx = b.keep_cx)
    (h3 : a.epsilon_override = b.epsilon_override) :
    create_pass gs type a = create_pass gs type b := by
  cases a; cases b
  dsimp at h1 h2 h3
  subst h1; subst h2; subst h3
  rfl

/-- Helper: the returned value of the pass loop is the same for two
configurations that materialise the same passes (the configuration only
reaches the circuit through create_pass). -/
lemma execLoop_result_congr (gs : Bool) (runSem : RunSem) (a b : PassConfig)
    (hcp : ∀ type, create_pass gs type a = create_pass gs type b) :
    ∀ (ts : List PassType) (c : Circuit),
      (execLoop gs runSem a ts c).1 = (execLoop gs runSem b ts c).1 := by
  intro ts
  induction ts with
  | nil => intro c; rfl
  | cons t rest ih =>
    intro c
    simp only [execLoop, hcp t]
    cases hc : create_pass gs t b with
    | none => simpa using ih c
    | some p =>
      cases hr : runSem p c with
      | error e => simp [hr]
      | ok mc =>
        obtain ⟨m, c2⟩ := mc
        simp [hr, ih c2]

/-- Helper: with silent set, the pass loop prints nothing. -/
lemma execLoop_silent_out (gs : Bool) (runSem : RunSem) (config : PassConfig)
    (hs : config.silent = true) :
    ∀ (ts : List PassType) (c : Circuit),
      (execLoop gs runSem config ts c).2 = [] := by
  intro ts
  induction ts with
  | nil => intro c; rfl
  | cons t rest ih =>
    intro c
    simp only [execLoop]
    cases hc : create_pass gs t config with
    | none => simp [hs, ih c]
    | some p =>
      cases hr : runSem p c with
      | error e => simp [hr]
      | ok mc =>
        obtain ⟨m, c2⟩ := mc
        simp [hs, hr, ih c2]

/-- C9: the silent flag is pure output suppression: for every circuit,
pass list, semantics of the pass objects and configuration, the value
execute_passes returns with silent set equals the value returned with
silent cleared (all other fields equal), and with silent set the driver
prints nothing at all - in particular no warning for a skipped pass. -/
theorem silent_flag_noninterference :
    ∀ (gs : Bool) (runSem : RunSem) (circuit : Circuit) (passes : List PassType)
      (config : PassConfig),
      (execute_passes gs runSem circuit passes { config with silent := true }).1 =
        (execute_passes gs runSem circuit passes { config with silent := false }).1 ∧
      (execute_passes gs runSem circuit passes { config with silent := true }).2 = [] := by
  intro gs runSem circuit passes config
  have hcp : ∀ type, create_pass gs type { config with silent := true } =
      create_pass gs type { config with silent := false } :=
    fun type => create_pass_fields_congr gs type _ _ rfl rfl rfl
  have h1 := execLoop_result_congr gs runSem _ _ hcp passes circuit
  have h2 := execLoop_silent_out gs runSem { config with silent := true } rfl passes circuit
  simp only [execute_passes]
  cases hT : execLoop gs runSem { config with silent := true } passes circuit with
  | mk rT outT =>
    cases hF : execLoop gs runSem { config with silent := false } passes circuit with
    | mk rF outF =>
      rw [hT, hF] at h1
      rw [hT] at h2
      dsimp at h1 h2
      subst h1; subst h2
      cases rT <;> simp

/-- A run semantics in which every pass succeeds and leaves the circuit
unchanged; used to instantiate driver properties at concrete inputs. -/
def trivialRunSem : RunSem := fun _ c => .ok (false, c)

/-- A run semantics in which every pass throws; used to instantiate the
error-propagation properties at concrete inputs. -/
def failRunSem : RunSem := fun _ _ => .error "fail"

/-- A one-qubit, one-gate concrete circuit. -/
def exampleCircuit : Circuit := { num_qubits := 1, num_cbits := 0, ops := [Op.h 0] }

/-- The default configuration with only silent set. -/
def silentConfig : PassConfig :=
  { keep_ccx := false, keep_cx := false, epsilon_override := -1, silent := true }

/-- C2 counterexample: with silent set, a pass kind that cannot be
materialised (here the out-of-range value 8) is skipped without any
warning - the driver prints nothing at all - so the claim that the driver
emits a warning whenever it cannot materialise a pass is false as
stated. -/
theorem skipped_pass_warning_counterexample :
    create_pass true 8 silentConfig = none ∧
    (execute_passes true trivialRunSem exampleCircuit [8] silentConfig).2 = [] ∧
    (execute_passes true trivialRunSem exampleCircuit [8] silentConfig).1 =
      .ok exampleCircuit :=
  ⟨rfl, rfl, rfl⟩

/-- C2 (amended): create_pass returns no pass object exactly for a kind
outside the eight enumerators or for SYNTHESIZE_RZ without the
grid-synthesis backend; in that case the driver emits a warning when
silent is false (and nothing when silent is set), leaves the circuit
unchanged for that step, and continues with the remaining passes of the
list. -/
theorem skipped_pass_behavior :
    (∀ (gs : Bool) (type : PassType) (config : PassConfig),
      create_pass gs type config = none ↔
        (type ∉ PassType.allKinds ∨ (type = PassType.SYNTHESIZE_RZ ∧ gs = false))) ∧
    (∀ (gs : Bool) (runSem : RunSem) (config : PassConfig) (c : Circuit)
       (type : PassType) (rest : List PassType),
      create_pass gs type config = none →
      execLoop gs runSem config (type :: rest) c =
        ((execLoop gs runSem config rest c).1,
         (if config.silent then [] else [.warning (pass_type_to_string type)]) ++
           (execLoop gs runSem config rest c).2) ∧
      (execute_passes gs runSem c (type :: rest) config).1 =
        (execute_passes gs runSem c rest config).1) := by
  constructor
  · intro gs type config
    simp only [create_pass, PassType.allKinds, List.mem_cons, List.not_mem_nil,
      or_false, not_or]
    split_ifs with h1 h2 h3 h4 h5 h6 h7 h8 h9 h10 <;>
      simp_all [PassType.DECOMPOSE, PassType.REMOVE_TRIVIAL_RZ, PassType.GATE_FUSION,
        PassType.REMOVE_PAULI, PassType.TO_PBC, PassType.CLIFFORD_REDUCTION,
        PassType.SYNTHESIZE_RZ, PassType.TFUSE]
  · intro gs runSem config c type rest h
    have hstep : execLoop gs runSem config (type :: rest) c =
        ((execLoop gs runSem config rest c).1,
         (if config.silent then [] else [.warning (pass_type_to_string type)]) ++
           (execLoop gs runSem config rest c).2) := by
      simp [execLoop, h]
    refine ⟨hstep, ?_⟩
    cases hr : execLoop gs runSem config rest c with
    | mk r out =>
      simp only [execute_passes, hstep, hr]
      cases r <;> simp

/-- Witness for C2 (amended) at the concrete skipped kind SYNTHESIZE_RZ
without the grid-synthesis backend. -/
theorem skipped_pass_behavior_witness :
    create_pass false PassType.SYNTHESIZE_RZ PassConfig.default = none ∧
    (execute_passes false trivialRunSem exampleCircuit
        [PassType.SYNTHESIZE_RZ, PassType.GATE_FUSION] PassConfig.default).1 =
      (execute_passes false trivialRunSem exampleCircuit
        [PassType.GATE_FUSION] PassConfig.default).1 :=
  ⟨rfl,
   (skipped_pass_behavior.2 false trivialRunSem PassConfig.default exampleCircuit
     PassType.SYNTHESIZE_RZ [PassType.GATE_FUSION] rfl).2⟩

/-- Helper: splitting the pass loop at a list append: the suffix runs
from the circuit the prefix produced, and an error in the prefix ends the
loop with the output produced so far. -/
lemma execLoop_append (gs : Bool) (runSem : RunSem) (config : PassConfig) :
    ∀ (xs ys : List PassType) (c : Circuit),
      execLoop gs runSem config (xs ++ ys) c =
        match execLoop gs runSem config xs c with
        | (.ok c2, out) =>
          ((execLoop gs runSem config ys c2).1,
           out ++ (execLoop gs runSem config ys c2).2)
        | (.error e, out) => (.error e, out) := by
  intro xs
  induction xs with
  | nil =>
    intro ys c
    simp [execLoop]
  | cons t rest ih =>
    intro ys c
    simp only [List.cons_append, execLoop]
    cases hc : create_pass gs t config with
    | none =>
      simp only [List.append_eq]
      rw [ih]
      cases hrest : execLoop gs runSem config rest c with
      | mk r out =>
        simp only [hrest]
        cases r <;> simp
    | some p =>
      cases hr : runSem p c with
      | error e => simp [hr]
      | ok mc =>
        obtain ⟨m, c2⟩ := mc
        simp only [hr, List.append_eq]
        rw [ih]
        cases hrest : execLoop gs runSem config rest c2 with
        | mk r out =>
          simp only [hrest]
          cases r <;> simp

/-- Whether a driver result carries a returned circuit. -/
def resultIsOk : Except PassError Circuit → Bool
  | .ok _ => true
  | .error _ => false

/-- C1 counterexample: when the first pass signals hard failure, the
result of the driver is the bare error: no circuit accompanies it, so the
claim that the driver captures the error and returns the partially
transformed circuit together with it is false at this input (the
partially transformed circuit would be the input circuit itself). -/
theorem error_capture_counterexample :
    (execute_passes true failRunSem exampleCircuit
        [PassType.DECOMPOSE, PassType.GATE_FUSION] PassConfig.default).1 =
      .error "fail" ∧
    resultIsOk (execute_passes true failRunSem exampleCircuit
        [PassType.DECOMPOSE, PassType.GATE_FUSION] PassConfig.default).1 = false :=
  ⟨rfl, rfl⟩

/-- C1 (amended): when a pass signals hard failure, the driver stops
executing the remaining passes of the pipeline and the error propagates
to the caller unchanged - the driver installs no handler - but the
partially transformed circuit is not returned: the result is the bare
error, and the output is exactly the output of the pipeline truncated at
the failing pass. -/
theorem execute_passes_error_propagation :
    ∀ (gs : Bool) (runSem : RunSem) (config : PassConfig) (circuit : Circuit)
      (pre : List PassType) (c2 : Circuit) (type : PassType) (p : PassInstance)
      (e : PassError) (rest : List PassType),
      (execLoop gs runSem config pre circuit).1 = .ok c2 →
      create_pass gs type config = some p →
      runSem p c2 = .error e →
      (execute_passes gs runSem circuit (pre ++ type :: rest) config).1 = .error e ∧
      (execute_passes gs runSem circuit (pre ++ type :: rest) config).2 =
        (execute_passes gs runSem circuit (pre ++ [type]) config).2 := by
  intro gs runSem config circuit pre c2 type p e rest h1 h2 h3
  have hstep : ∀ ys : List PassType,
      execLoop gs runSem config (type :: ys) c2 = (.error e, []) := by
    intro ys
    simp [execLoop, h2, h3]
  cases hpre : execLoop gs runSem config pre circuit with
  | mk r out =>
    rw [hpre] at h1
    dsimp at h1
    subst h1
    have ha := execLoop_append gs runSem config pre (type :: rest) circuit
    have hb := execLoop_append gs runSem config pre [type] circuit
    rw [hpre] at ha hb
    simp [hstep] at ha hb
    simp [execute_passes, ha, hb]

/-- Witness for C1 (amended): a concrete two-pass pipeline whose first
pass throws; the result is the bare error and the output matches the
one-pass truncation. -/
theorem execute_passes_error_propagation_witness :
    (execute_passes true failRunSem exampleCircuit
        ([] ++ PassType.DECOMPOSE :: [PassType.GATE_FUSION]) PassConfig.default).1 =
      .error "fail" ∧
    (execute_passes true failRunSem exampleCircuit
        ([] ++ PassType.DECOMPOSE :: [PassType.GATE_FUSION]) PassConfig.default).2 =
      (execute_passes true failRunSem exampleCircuit
        ([] ++ [PassType.DECOMPOSE]) PassConfig.default).2 :=
  execute_passes_error_propagation true failRunSem PassConfig.default exampleCircuit
    [] exampleCircuit PassType.DECOMPOSE (.decompose false) "fail"
    [PassType.GATE_FUSION] rfl rfl rfl

/-- The per-pass console trace in the words of the spec (section 4.2):
for each pass kind the driver materialises a pass object, snapshots the
statistics, runs it and emits one row with the pass name, the modified
flag run returned, the total gate count before, the total gate count
after and the depth after; a kind it cannot materialise produces a
warning instead.  Returns the trace together with the final circuit. -/
def specRows (gs : Bool) (pSem : PassInstance → Circuit → Bool × Circuit)
    (config : PassConfig) : List PassType → Circuit → List OutEvent × Circuit
  | [], c => ([], c)
  | type :: rest, c =>
    match create_pass gs type config with
    | none =>
      let r := specRows gs pSem config rest c
      (.warning (pass_type_to_string type) :: r.1, r.2)
    | some p =>
      let mc := pSem p c
      let r := specRows gs pSem config rest mc.2
      (.row (pass_type_to_string type) mc.1 c.gateTotal mc.2.gateTotal mc.2.depth
         :: r.1, r.2)

/-- Helper: with silent cleared and a never-throwing run semantics, the
pass loop produces exactly the spec trace and ends in its final
circuit. -/
lemma execLoop_specRows (gs : Bool) (pSem : PassInstance → Circuit → Bool × Circuit)
    (config : PassConfig) (hs : config.silent = false) :
    ∀ (ts : List PassType) (c : Circuit),
      execLoop gs (fun p c => Except.ok (pSem p c)) config ts c =
        (.ok (specRows gs pSem config ts c).2, (specRows gs pSem config ts c).1) := by
  intro ts
  induction ts with
  | nil => intro c; simp [execLoop, specRows]
  | cons t rest ih =>
    intro c
    simp only [execLoop, specRows]
    cases hc : create_pass gs t config with
    | none => simp [hs, ih c]
    | some p =>
      cases hmc : pSem p c with
      | mk m c2 => simp [hs, hmc, ih c2]

/-- A pure run semantics in which every pass reports no modification;
used to instantiate the output-shape property at a concrete input. -/
def trivialPureSem : PassInstance → Circuit → Bool × Circuit := fun _ c => (false, c)

/-- C7 counterexample: with silent cleared, a pipeline consisting of the
single kind SYNTHESIZE_RZ run without the grid-synthesis backend emits no
statistics row at all (only a warning), so the claim that the driver
emits exactly one row for each pass kind in the list is false as
stated. -/
theorem statistics_rows_counterexample :
    PassConfig.default.silent = false ∧
    (execute_passes false trivialRunSem exampleCircuit
        [PassType.SYNTHESIZE_RZ] PassConfig.default).2.countP OutEvent.isRow = 0 ∧
    (execute_passes false trivialRunSem exampleCircuit
        [PassType.SYNTHESIZE_RZ] PassConfig.default).2 =
      [.header, .warning "SYNTHESIZE_RZ", .finalStats 1 1 0] :=
  ⟨rfl, rfl, rfl⟩

/-- C7 (amended): with silent cleared and every pass returning normally,
the output of the driver is the header, then for each pass kind in order one
statistics row (pass name, modified flag returned by run, total gates
before, total gates after, depth after) when the pass is materialised and
a warning when it is not, and after the last pass the aggregate
statistics of the final circuit. -/
theorem statistics_rows_output :
    ∀ (gs : Bool) (pSem : PassInstance → Circuit → Bool × Circuit)
      (circuit : Circuit) (passes : List PassType) (config : PassConfig),
      config.silent = false →
      execute_passes gs (fun p c => Except.ok (pSem p c)) circuit passes config =
        (.ok (specRows gs pSem config passes circuit).2,
         OutEvent.header :: (specRows gs pSem config passes circuit).1 ++
           [OutEvent.finalStats (specRows gs pSem config passes circuit).2.gateTotal
             (specRows gs pSem config passes circuit).2.depth
             (statsTCount (specRows gs pSem config passes circuit).2.ops)]) := by
  intro gs pSem circuit passes config hs
  have h := execLoop_specRows gs pSem config hs passes circuit
  simp [execute_passes, h, hs]

/-- Witness for C7 (amended) at a concrete one-pass pipeline. -/
theorem statistics_rows_output_witness :
    PassConfig.default.silent = false ∧
    execute_passes true (fun p c => Except.ok (trivialPureSem p c)) exampleCircuit
        [PassType.DECOMPOSE] PassConfig.default =
      (.ok (specRows true trivialPureSem PassConfig.default
              [PassType.DECOMPOSE] exampleCircuit).2,
       OutEvent.header :: (specRows true trivialPureSem PassConfig.default
              [PassType.DECOMPOSE] exampleCircuit).1 ++
         [OutEvent.finalStats
           (specRows true trivialPureSem PassConfig.default
              [PassType.DECOMPOSE] exampleCircuit).2.gateTotal
           (specRows true trivialPureSem PassConfig.default
              [PassType.DECOMPOSE] exampleCircuit).2.depth
           (statsTCount (specRows true trivialPureSem PassConfig.default
              [PassType.DECOMPOSE] exampleCircuit).2.ops)]) :=
  ⟨rfl, statistics_rows_output true trivialPureSem exampleCircuit
    [PassType.DECOMPOSE] PassConfig.default rfl⟩

/-- C10: execute_sequence is a direct delegation to execute_passes: both
return the same value and produce the same output on every circuit, pass
list and configuration. -/
theorem execute_sequence_eq_execute_passes :
    ∀ (gs : Bool) (runSem : RunSem) (circuit : Circuit)
      (seqArg : List PassType) (config : PassConfig),
      execute_sequence gs runSem circuit seqArg config =
        execute_passes gs runSem circuit seqArg config :=
  fun _ _ _ _ _ => rfl

end NWQEC
